import Mathlib

/- A verification development for the logeion scraper: a shallow embedding of
   the durable crawl queue (src/database.py) and of the fetch worker and crawl
   loop (src/scraper.py), with theorems settling the specification claims. -/

namespace Logeion

/-- Status constant from the Database class (database.py line 12). -/
def STATUS_PENDING : String := "pending"

/-- Status constant from the Database class (database.py line 13). -/
def STATUS_PROCESSING : String := "processing"

/-- Status constant from the Database class (database.py line 14). -/
def STATUS_COMPLETED : String := "completed"

/-- Status constant from the Database class (database.py line 15). -/
def STATUS_FAILED : String := "failed"

/-- One row of the scrape_queue table (database.py lines 39-48). The status
column is TEXT, so it is modelled as an arbitrary string. Creation order is
the position in the queue list; timestamps are ticks of a logical clock. -/
structure QueueItem where
  url : String
  status : String
  error : Option String
  retry_count : Nat
  last_attempted : Option Nat
  processing_started : Option Nat
deriving DecidableEq

/-- One row of the lemmas table (database.py lines 29-37), unique by the pair
of lemma and language. -/
structure LemmaRow where
  lemma_text : String
  language : String
  details : String
  source : String
deriving DecidableEq

/-- A lexicon entry dictionary passed to add_lexicon_entry: optional fields
default to greek and LSJ (database.py lines 63-67). -/
structure Entry where
  lemma_text : String
  language : Option String
  details : String
  source : Option String
deriving DecidableEq

/-- The persistent database state: the scrape_queue rows in rowid order, the
lemmas rows, and a logical clock supplying CURRENT_TIMESTAMP. -/
structure DBState where
  queue : List QueueItem
  lemmas : List LemmaRow
  time : Nat
deriving DecidableEq

/-- The freshly created database (database.py lines 21-54). -/
def emptyDB : DBState := { queue := [], lemmas := [], time := 0 }

/-- add_to_queue (database.py lines 115-127): INSERT OR IGNORE on the UNIQUE
url column, with status pending and retry_count defaulting to 0. -/
def addToQueue (url : String) (s : DBState) : DBState :=
  if s.queue.any (fun it => it.url == url) then s
  else { s with queue := s.queue ++
    [{ url := url, status := STATUS_PENDING, error := none, retry_count := 0,
       last_attempted := none, processing_started := none }] }

/-- The WHERE clause of get_next_url (database.py lines 135-136): pending, or
failed with retry_count below 3. -/
def eligible (it : QueueItem) : Bool :=
  it.status == STATUS_PENDING ||
    (it.status == STATUS_FAILED && decide (it.retry_count < 3))

/-- The SELECT of get_next_url (database.py lines 133-139): among the rows
matched by the WHERE clause, ORDER BY retry_count, created_at LIMIT 1 yields
the earliest row of minimal retry_count. -/
def pickEligible : List QueueItem → Option QueueItem
  | [] => none
  | x :: xs =>
    match pickEligible xs with
    | none => if eligible x = true then some x else none
    | some c =>
      if eligible x = true ∧ x.retry_count ≤ c.retry_count then some x else some c

/-- get_next_url (database.py lines 129-154): select one eligible row, mark it
processing, stamp processing_started with the current time, and return its
url together with its retry count. -/
def getNextUrl (s : DBState) : Option (String × Nat) × DBState :=
  match pickEligible s.queue with
  | none => (none, s)
  | some c =>
    (some (c.url, c.retry_count),
     { s with
        queue := s.queue.map (fun x =>
          if x.url = c.url then
            { x with status := STATUS_PROCESSING, processing_started := some s.time }
          else x),
        time := s.time + 1 })

/-- The SET clause of update_url_status (database.py lines 168-182):
retry_count is incremented exactly when the new status is failed, and
processing_started is kept exactly when the new status is processing. -/
def updateItem (status : String) (error : Option String) (t : Nat)
    (x : QueueItem) : QueueItem :=
  { x with
      status := status,
      error := error,
      retry_count := if status = STATUS_FAILED then x.retry_count + 1 else x.retry_count,
      last_attempted := some t,
      processing_started :=
        if status = STATUS_PROCESSING then x.processing_started else none }

/-- update_url_status (database.py lines 164-187): UPDATE WHERE url matches. -/
def updateUrlStatus (url status : String) (error : Option String)
    (s : DBState) : DBState :=
  { s with
      queue := s.queue.map (fun x =>
        if x.url = url then updateItem status error s.time x else x),
      time := s.time + 1 }

/-- mark_url_failed (database.py lines 156-158). -/
def markUrlFailed (url err : String) (s : DBState) : DBState :=
  updateUrlStatus url STATUS_FAILED (some err) s

/-- mark_url_completed (database.py lines 160-162). -/
def markUrlCompleted (url : String) (s : DBState) : DBState :=
  updateUrlStatus url STATUS_COMPLETED none s

/-- The per-row effect of the bulk UPDATE in reset_failed (database.py lines
239-243). -/
def resetItem (x : QueueItem) : QueueItem :=
  if x.status = STATUS_FAILED then
    { x with status := STATUS_PENDING, retry_count := 0, error := none }
  else x

/-- reset_failed (database.py lines 235-248): bulk UPDATE of the rows whose
status is failed; returns the number of rows the UPDATE matched. -/
def resetFailed (s : DBState) : Nat × DBState :=
  (s.queue.countP (fun x => x.status == STATUS_FAILED),
   { s with queue := s.queue.map resetItem })

/-- The counts dictionary returned by get_progress (database.py lines
189-212). -/
structure Progress where
  total : Nat
  completed : Nat
  failed : Nat
  pending : Nat
  processing : Nat
deriving DecidableEq

/-- get_progress (database.py lines 189-212). -/
def getProgress (s : DBState) : Progress :=
  { total := s.queue.length,
    completed := s.queue.countP (fun x => x.status == STATUS_COMPLETED),
    failed := s.queue.countP (fun x => x.status == STATUS_FAILED),
    pending := s.queue.countP (fun x => x.status == STATUS_PENDING),
    processing := s.queue.countP (fun x => x.status == STATUS_PROCESSING) }

/-- add_lexicon_entry (database.py lines 56-73): INSERT OR REPLACE keyed by
UNIQUE(lemma, language); a conflicting row is deleted and the new row is
appended; a missing language defaults to greek and a missing source to LSJ. -/
def addLexiconEntry (e : Entry) (s : DBState) : DBState :=
  let row : LemmaRow :=
    { lemma_text := e.lemma_text, language := e.language.getD "greek",
      details := e.details, source := e.source.getD "LSJ" }
  { s with lemmas :=
      s.lemmas.filter (fun r =>
        !(r.lemma_text == row.lemma_text && r.language == row.language)) ++ [row] }

/-- get_lexicon_entry (database.py lines 75-94): the first row matching the
lemma. -/
def getLexiconEntry (lemma_text : String) (s : DBState) : Option LemmaRow :=
  s.lemmas.find? (fun r => r.lemma_text == lemma_text)

/-- scrape_lemma_page (scraper.py lines 375-397), with the transport fetch
and the parser as parameters. Note the literal status string it reports: the
two failure branches and the exception handler write the status error, not
the STATUS_FAILED constant the rest of the queue machinery understands. -/
def scrapeLemmaPage (fetch : String → Option String)
    (parse : String → String → List Entry) (url : String) (s : DBState) :
    Bool × DBState :=
  match fetch url with
  | none => (false, updateUrlStatus url "error" (some "Failed to fetch content") s)
  | some content =>
    let entries := parse content url
    if entries.isEmpty then
      (false, updateUrlStatus url "error" (some "No entries found") s)
    else
      (true, updateUrlStatus url STATUS_COMPLETED none
        (entries.foldl (fun acc e => addLexiconEntry e acc) s))

/-- resume_scraping (scraper.py lines 201-226), with the per-url processing
step as a parameter (true means an entry was produced, false covers both a
falsy result and a raised exception) and explicit fuel for the while loop;
the loop body claims one url, processes it, and reports the outcome. -/
def resumeScraping (process : String → Bool) : Nat → DBState → DBState
  | 0, s => s
  | fuel + 1, s =>
    match getNextUrl s with
    | (none, s1) => s1
    | (some (url, _), s1) =>
      resumeScraping process fuel
        (if process url then markUrlCompleted url s1
         else markUrlFailed url "Failed to process URL" s1)

/-- The queue-mutating operations of the Database API, as invoked by the
scraper: enqueue, claim, success report, failure report, bulk reset. -/
inductive Op where
  | enqueue (url : String)
  | claimNext
  | reportSuccess (url : String)
  | reportFailure (url : String) (err : String)
  | reset
deriving DecidableEq

/-- The state transition of each queue operation. -/
def applyOp : Op → DBState → DBState
  | Op.enqueue url, s => addToQueue url s
  | Op.claimNext, s => (getNextUrl s).2
  | Op.reportSuccess url, s => markUrlCompleted url s
  | Op.reportFailure url err, s => markUrlFailed url err s
  | Op.reset, s => (resetFailed s).2

/-- The try/except boundary wrapped around the Database method bodies whose
handlers are infallible: those handlers log only their own string parameters,
so they evaluate the body against the storage connection and, if the storage
raised, return the documented fallback instead of propagating the error. The
add_lexicon_entry handler is not of this shape and is modelled separately
below. -/
def catchOr {α : Type} (body : Except String α) (fallback : α) : α :=
  match body with
  | Except.ok v => v
  | Except.error _ => fallback

/-- The raw entry dictionary handed to add_lexicon_entry by its callers: a
Python dict in which the lemma key may be absent; the language, details and
source fields are read with get and a default (database.py lines 63-67), so
only the lemma key can be missing in a way the method observes. -/
structure EntryDict where
  lemma_key : Option String
  language : Option String
  details : String
  source : Option String
deriving DecidableEq

/-- The dict subscript entry[lemma] (database.py lines 64 and 72): yields the
value, or raises KeyError when the key is absent. -/
def dictLemma (e : EntryDict) : Except String String :=
  match e.lemma_key with
  | some v => Except.ok v
  | none => Except.error "KeyError: lemma"

/-- The INSERT OR REPLACE of add_lexicon_entry given the extracted lemma
value (database.py lines 60-68), with the same replace semantics as
addLexiconEntry. -/
def addLexiconEntryRow (lem : String) (e : EntryDict) (s : DBState) : DBState :=
  let row : LemmaRow :=
    { lemma_text := lem, language := e.language.getD "greek",
      details := e.details, source := e.source.getD "LSJ" }
  { s with lemmas :=
      s.lemmas.filter (fun r =>
        !(r.lemma_text == row.lemma_text && r.language == row.language)) ++ [row] }

/-- add_lexicon_entry with its try/except boundary (database.py lines 56-73).
The body connects to storage, evaluates entry[lemma] and inserts; any raised
error reaches the handler, whose log f-string evaluates entry[lemma] again
(line 72). So: working storage and a present lemma key insert and return
true; a storage error with a present lemma key is caught, logged and returns
false; but whenever the lemma key is absent the body raises and then the
handler itself raises KeyError, which propagates to the caller. -/
def addLexiconEntryOp (conn : Except String Unit) (e : EntryDict)
    (s : DBState) : Except String (Bool × DBState) :=
  match conn, dictLemma e with
  | Except.ok _, Except.ok lem => Except.ok (true, addLexiconEntryRow lem e s)
  | Except.error _, Except.ok _ => Except.ok (false, s)
  | _, Except.error keyErr => Except.error keyErr

/-- add_to_queue with its exception handler (database.py lines 115-127). -/
def addToQueueOp (conn : Except String Unit) (url : String) (s : DBState) :
    Bool × DBState :=
  catchOr (conn.map (fun _ => (true, addToQueue url s))) (false, s)

/-- update_url_status with its exception handler (database.py lines 164-187). -/
def updateUrlStatusOp (conn : Except String Unit) (url status : String)
    (err : Option String) (s : DBState) : Bool × DBState :=
  catchOr (conn.map (fun _ => (true, updateUrlStatus url status err s))) (false, s)

/-- get_next_url with its exception handler (database.py lines 129-154). -/
def getNextUrlOp (conn : Except String Unit) (s : DBState) :
    Option (String × Nat) × DBState :=
  catchOr (conn.map (fun _ => getNextUrl s)) (none, s)

/-- get_lexicon_entry with its exception handler (database.py lines 75-94). -/
def getLexiconEntryOp (conn : Except String Unit) (lemma_text : String)
    (s : DBState) : Option LemmaRow :=
  catchOr (conn.map (fun _ => getLexiconEntry lemma_text s)) none

/-- reset_failed with its exception handler (database.py lines 235-248). -/
def resetFailedOp (conn : Except String Unit) (s : DBState) : Nat × DBState :=
  catchOr (conn.map (fun _ => resetFailed s)) (0, s)

/-- The all-zero counts dictionary of the get_progress handler (database.py
line 212). -/
def zeroProgress : Progress :=
  { total := 0, completed := 0, failed := 0, pending := 0, processing := 0 }

/-- get_progress with its exception handler (database.py lines 189-212). -/
def getProgressOp (conn : Except String Unit) (s : DBState) : Progress :=
  catchOr (conn.map (fun _ => getProgress s)) zeroProgress

/-- The shared marker self.last_request_time (scraper.py line 85). -/
structure LimiterState where
  last_request_time : Nat
deriving DecidableEq

/-- Lines 92-95 of _wait_for_delay, up to its await point: read the clock and
the marker and compute the instant at which the sleep ends, which is the
instant the slot is granted. -/
def waitWakeTime (st : LimiterState) (now delay : Nat) : Nat :=
  if now - st.last_request_time < delay then
    now + (delay - (now - st.last_request_time))
  else now

/-- Line 96 of _wait_for_delay, reached only after the awaited sleep:
overwrite the marker with the clock reading at the wake instant. -/
def waitWrite (_old : LimiterState) (wake : Nat) : LimiterState :=
  { last_request_time := wake }

/-- Two workers call _wait_for_delay concurrently at clock now: under the
event loop both run the read and compute phase before either reaches the
marker write that follows the awaited sleep, so both wake times are computed
from the same stale marker. Returns both grant instants and the final
marker. -/
def interleavedGrants (st0 : LimiterState) (now delay : Nat) :
    Nat × Nat × LimiterState :=
  let wakeA := waitWakeTime st0 now delay
  let wakeB := waitWakeTime st0 now delay
  let st1 := waitWrite st0 wakeA
  let st2 := waitWrite st1 wakeB
  (wakeA, wakeB, st2)

/-- The four legal status values of the specification state machine. -/
def validStatus (st : String) : Bool :=
  st == STATUS_PENDING || st == STATUS_PROCESSING ||
    st == STATUS_COMPLETED || st == STATUS_FAILED

/-- A freshly enqueued row. -/
def pendingItem (u : String) : QueueItem :=
  { url := u, status := STATUS_PENDING, error := none, retry_count := 0,
    last_attempted := none, processing_started := none }

/-- A failed row with two attempts spent. -/
def failedItem (u : String) : QueueItem :=
  { url := u, status := STATUS_FAILED, error := some "boom", retry_count := 2,
    last_attempted := some 1, processing_started := none }

/-- Concrete store used to instantiate the claim about get_next_url. -/
def c1w : DBState := { queue := [pendingItem "a"], lemmas := [], time := 0 }

/-- Concrete store used to instantiate the claim about update_url_status. -/
def c2w : DBState := { queue := [pendingItem "a"], lemmas := [], time := 0 }

/-- Concrete store used to instantiate the retry-count dynamics claim. -/
def c4w : DBState := { queue := [pendingItem "a"], lemmas := [], time := 0 }

/-- Concrete store with exactly three failed rows. -/
def c6w : DBState :=
  { queue := [failedItem "f1", failedItem "f2", failedItem "f3"],
    lemmas := [], time := 0 }

/-- Five freshly enqueued keys. -/
def c7Start : DBState :=
  ["a", "b", "c", "d", "e"].foldl (fun s u => addToQueue u s) emptyDB

/-- The store left by the crawl loop when every processing attempt fails. -/
def c7Final : DBState := resumeScraping (fun _ => false) 20 c7Start

/-- The contract of get_next_url asserted by claim C1: it returns no item
exactly when no row is eligible (and then changes nothing); when it returns
an item, that item is an eligible row, minimal by retry count and then by
creation order, it is neither completed nor failed with an exhausted retry
budget, and the only change to the store is that this row becomes processing
with processing_started stamped. -/
def getNextUrlSpec (s : DBState) : Prop :=
  ((getNextUrl s).1 = none ↔ ∀ it ∈ s.queue, eligible it = false) ∧
  ((getNextUrl s).1 = none → (getNextUrl s).2 = s) ∧
  (∀ url rc, (getNextUrl s).1 = some (url, rc) →
    ∃ c l1 l2, s.queue = l1 ++ c :: l2 ∧ c.url = url ∧ c.retry_count = rc ∧
      eligible c = true ∧
      c.status ≠ STATUS_COMPLETED ∧
      ¬(c.status = STATUS_FAILED ∧ 3 ≤ c.retry_count) ∧
      (∀ y ∈ l1, eligible y = true → rc < y.retry_count) ∧
      (∀ y ∈ l2, eligible y = true → rc ≤ y.retry_count) ∧
      (getNextUrl s).2 = { s with
        queue := l1 ++
          { c with status := STATUS_PROCESSING,
                   processing_started := some s.time } :: l2,
        time := s.time + 1 })

/-- The contract of update_url_status asserted by claim C2, for a store whose
queue splits as l1 ++ it :: l2 around the targeted row: the success report
and the failure report each rewrite exactly that row as described, leaving
every other row untouched. -/
def updateStatusSpec (s : DBState) (l1 : List QueueItem) (it : QueueItem)
    (l2 : List QueueItem) (err : String) : Prop :=
  markUrlCompleted it.url s =
    { s with
        queue := l1 ++
          { it with status := STATUS_COMPLETED, error := none,
                    retry_count := it.retry_count,
                    last_attempted := some s.time,
                    processing_started := none } :: l2,
        time := s.time + 1 } ∧
  markUrlFailed it.url err s =
    { s with
        queue := l1 ++
          { it with status := STATUS_FAILED, error := some err,
                    retry_count := it.retry_count + 1,
                    last_attempted := some s.time,
                    processing_started := none } :: l2,
        time := s.time + 1 }

/-- Claim C4 exactly as stated: a failure report never increases the retry
count of an item whose current status is not processing. -/
def claimC4Stated : Prop :=
  ∀ (s : DBState) (i : Nat) (b : QueueItem) (url err : String),
    s.queue.get? i = some b → b.status ≠ STATUS_PROCESSING →
    ∀ a, (markUrlFailed url err s).queue.get? i = some a →
      a.retry_count ≤ b.retry_count

/-- An entry dictionary lacking the lemma key. -/
def noLemmaEntry : EntryDict :=
  { lemma_key := none, language := none, details := "x", source := none }

/-- An entry dictionary carrying a lemma key. -/
def someLemmaEntry : EntryDict :=
  { lemma_key := some "logos", language := none, details := "d", source := none }

/-- Claim C10 exactly as stated, at add_lexicon_entry: for every input and
every storage outcome the call returns a result to its caller, never
propagating an exception, and on a storage error it returns false with the
store unchanged. -/
def claimC10Stated : Prop :=
  ∀ (conn : Except String Unit) (e : EntryDict) (s : DBState),
    (∃ r, addLexiconEntryOp conn e s = Except.ok r) ∧
    (∀ err, conn = Except.error err →
      addLexiconEntryOp conn e s = Except.ok (false, s))

/-- The amended error-path contract of the Database operations asserted by
claim C10: on a storage error, add_to_queue and update_url_status return
false, get_next_url and get_lexicon_entry return none, reset_failed returns
0 and get_progress returns the all-zero counts, each with the store
unchanged, and on a working storage each returns its normal result;
add_lexicon_entry behaves that way only when the entry dictionary carries a
lemma key, and propagates KeyError to its caller whenever the key is absent,
whatever the storage did. -/
def databaseOpsSpec (err lem : String) (e : EntryDict)
    (url status lemq : String) (oerr : Option String) (s : DBState) : Prop :=
  addLexiconEntryOp (Except.error err) e s = Except.ok (false, s) ∧
  addLexiconEntryOp (Except.ok ()) e s =
    Except.ok (true, addLexiconEntryRow lem e s) ∧
  (∀ (e2 : EntryDict), e2.lemma_key = none →
    ∀ (conn : Except String Unit),
      addLexiconEntryOp conn e2 s = Except.error "KeyError: lemma") ∧
  addToQueueOp (Except.error err) url s = (false, s) ∧
  updateUrlStatusOp (Except.error err) url status oerr s = (false, s) ∧
  getNextUrlOp (Except.error err) s = (none, s) ∧
  getLexiconEntryOp (Except.error err) lemq s = none ∧
  resetFailedOp (Except.error err) s = (0, s) ∧
  getProgressOp (Except.error err) s = zeroProgress ∧
  addToQueueOp (Except.ok ()) url s = (true, addToQueue url s) ∧
  updateUrlStatusOp (Except.ok ()) url status oerr s =
    (true, updateUrlStatus url status oerr s) ∧
  getNextUrlOp (Except.ok ()) s = getNextUrl s ∧
  getLexiconEntryOp (Except.ok ()) lemq s = getLexiconEntry lemq s ∧
  resetFailedOp (Except.ok ()) s = resetFailed s ∧
  getProgressOp (Except.ok ()) s = getProgress s


theorem eligible_cases {it : QueueItem} (h : eligible it = true) :
    it.status = STATUS_PENDING ∨ (it.status = STATUS_FAILED ∧ it.retry_count < 3) := by
  unfold eligible at h
  simp only [Bool.or_eq_true, Bool.and_eq_true, beq_iff_eq, decide_eq_true_eq] at h
  exact h

theorem pickEligible_mem_eligible :
    ∀ {l : List QueueItem} {c : QueueItem}, pickEligible l = some c →
      c ∈ l ∧ eligible c = true := by
  intro l
  induction l with
  | nil => intro c h; simp [pickEligible] at h
  | cons x xs ih =>
    intro c h
    cases hz : pickEligible xs with
    | none =>
      simp only [pickEligible, hz] at h
      by_cases he : eligible x = true
      · rw [if_pos he] at h
        cases h
        exact ⟨List.mem_cons_self x xs, he⟩
      · rw [if_neg he] at h
        cases h
    | some c0 =>
      simp only [pickEligible, hz] at h
      by_cases hc : eligible x = true ∧ x.retry_count ≤ c0.retry_count
      · rw [if_pos hc] at h
        cases h
        exact ⟨List.mem_cons_self x xs, hc.1⟩
      · rw [if_neg hc] at h
        cases h
        have := ih hz
        exact ⟨List.mem_cons_of_mem x this.1, this.2⟩

theorem pickEligible_eq_none {l : List QueueItem} :
    pickEligible l = none ↔ ∀ x ∈ l, eligible x = false := by
  induction l with
  | nil => simp [pickEligible]
  | cons x xs ih =>
    cases hz : pickEligible xs with
    | none =>
      simp only [pickEligible, hz]
      by_cases he : eligible x = true
      · simp only [if_pos he]
        constructor
        · intro h; cases h
        · intro hall
          have := hall x (List.mem_cons_self x xs)
          rw [he] at this
          cases this
      · simp only [if_neg he, true_iff]
        intro y hy
        rcases List.mem_cons.mp hy with rfl | hmem
        · exact Bool.eq_false_iff.mpr he
        · exact ih.mp hz y hmem
    | some c0 =>
      simp only [pickEligible, hz]
      constructor
      · intro h
        by_cases hc : eligible x = true ∧ x.retry_count ≤ c0.retry_count
        · rw [if_pos hc] at h; cases h
        · rw [if_neg hc] at h; cases h
      · intro hall
        exfalso
        have hmem := pickEligible_mem_eligible hz
        have := hall c0 (List.mem_cons_of_mem x hmem.1)
        rw [hmem.2] at this
        cases this

/-- The row selected by the ORDER BY retry_count, created_at LIMIT 1 query:
the queue splits around it, every eligible row created earlier has a strictly
larger retry count, and every eligible row created later has a retry count at
least as large. -/
theorem pickEligible_spec :
    ∀ {l : List QueueItem} {c : QueueItem}, pickEligible l = some c →
      ∃ l1 l2, l = l1 ++ c :: l2 ∧ eligible c = true ∧
        (∀ y ∈ l1, eligible y = true → c.retry_count < y.retry_count) ∧
        (∀ y ∈ l2, eligible y = true → c.retry_count ≤ y.retry_count) := by
  intro l
  induction l with
  | nil => intro c h; simp [pickEligible] at h
  | cons x xs ih =>
    intro c h
    cases hz : pickEligible xs with
    | none =>
      simp only [pickEligible, hz] at h
      by_cases he : eligible x = true
      · rw [if_pos he] at h
        cases h
        refine ⟨[], xs, rfl, he, ?_, ?_⟩
        · intro y hy; cases hy
        · intro y hy hye
          have := pickEligible_eq_none.mp hz y hy
          rw [hye] at this
          cases this
      · rw [if_neg he] at h
        cases h
    | some c0 =>
      simp only [pickEligible, hz] at h
      obtain ⟨m1, m2, hxs, helig0, hbef, haft⟩ := ih hz
      by_cases hc : eligible x = true ∧ x.retry_count ≤ c0.retry_count
      · rw [if_pos hc] at h
        cases h
        refine ⟨[], xs, rfl, hc.1, ?_, ?_⟩
        · intro y hy; cases hy
        · intro y hy hye
          rw [hxs] at hy
          rcases List.mem_append.mp hy with hy1 | hy2
          · exact le_trans hc.2 (le_of_lt (hbef y hy1 hye))
          · rcases List.mem_cons.mp hy2 with rfl | hy3
            · exact hc.2
            · exact le_trans hc.2 (haft y hy3 hye)
      · rw [if_neg hc] at h
        cases h
        refine ⟨x :: m1, m2, by rw [hxs, List.cons_append], helig0, ?_, haft⟩
        intro y hy hye
        rcases List.mem_cons.mp hy with rfl | hy1
        · push_neg at hc
          exact hc hye
        · exact hbef y hy1 hye


theorem map_update_id (f : QueueItem → QueueItem) (u : String)
    (l : List QueueItem) (h : ∀ y ∈ l, y.url ≠ u) :
    l.map (fun x => if x.url = u then f x else x) = l := by
  induction l with
  | nil => rfl
  | cons a t ih =>
    simp only [List.map_cons]
    rw [if_neg (h a (List.mem_cons_self a t)),
      ih (fun y hy => h y (List.mem_cons_of_mem a hy))]

theorem map_update_append (f : QueueItem → QueueItem) (l1 l2 : List QueueItem)
    (c : QueueItem) (h1 : ∀ y ∈ l1, y.url ≠ c.url)
    (h2 : ∀ y ∈ l2, y.url ≠ c.url) :
    (l1 ++ c :: l2).map (fun x => if x.url = c.url then f x else x) =
      l1 ++ f c :: l2 := by
  rw [List.map_append, List.map_cons, if_pos rfl,
    map_update_id f c.url l1 h1, map_update_id f c.url l2 h2]

theorem nodup_split_urls (l1 l2 : List QueueItem) (c : QueueItem)
    (hu : ((l1 ++ c :: l2).map QueueItem.url).Nodup) :
    (∀ y ∈ l1, y.url ≠ c.url) ∧ (∀ y ∈ l2, y.url ≠ c.url) := by
  rw [List.map_append, List.map_cons] at hu
  rcases List.nodup_append.mp hu with ⟨h1, h2, hdisj⟩
  constructor
  · intro y hy heq
    exact hdisj (List.mem_map_of_mem QueueItem.url hy)
      (heq ▸ List.mem_cons_self y.url (l2.map QueueItem.url))
  · intro y hy heq
    rcases List.nodup_cons.mp h2 with ⟨hnc, _⟩
    exact hnc (heq ▸ List.mem_map_of_mem QueueItem.url hy)

/-- C1: for every store whose urls are unique, get_next_url returns an item
only if it is pending or failed with retry_count below 3, picks the minimal
eligible item by retry count and then creation order, marks exactly that item
processing and stamps processing_started, never returns a completed item or a
failed item with an exhausted retry budget, and returns nothing exactly when
no item is eligible. -/
theorem getNextUrl_claim (s : DBState)
    (hu : (s.queue.map QueueItem.url).Nodup) : getNextUrlSpec s := by
  unfold getNextUrlSpec
  cases hp : pickEligible s.queue with
  | none =>
    refine ⟨?_, ?_, ?_⟩
    · have hn : (getNextUrl s).1 = none := by simp [getNextUrl, hp]
      rw [hn]
      exact iff_of_true rfl (pickEligible_eq_none.mp hp)
    · intro _
      simp [getNextUrl, hp]
    · intro url rc hsome
      simp [getNextUrl, hp] at hsome
  | some c =>
    obtain ⟨l1, l2, hsq, helig, hbef, haft⟩ := pickEligible_spec hp
    have hmem : c ∈ s.queue ∧ eligible c = true := pickEligible_mem_eligible hp
    refine ⟨?_, ?_, ?_⟩
    · simp only [getNextUrl, hp]
      refine iff_of_false (by simp) ?_
      intro hall
      have := hall c hmem.1
      rw [hmem.2] at this
      cases this
    · intro hnone
      simp [getNextUrl, hp] at hnone
    · intro url rc hsome
      simp only [getNextUrl, hp] at hsome
      obtain ⟨hurl, hrc⟩ : c.url = url ∧ c.retry_count = rc := by
        cases hsome
        exact ⟨rfl, rfl⟩
      obtain ⟨hn1, hn2⟩ := nodup_split_urls l1 l2 c (hsq ▸ hu)
      refine ⟨c, l1, l2, hsq, hurl, hrc, helig, ?_, ?_, ?_, ?_, ?_⟩
      · intro hcomp
        rcases eligible_cases helig with h | ⟨h, _⟩ <;>
          · rw [hcomp] at h
            exact absurd h (by decide)
      · rintro ⟨hf, hge⟩
        rcases eligible_cases helig with h | ⟨_, hlt⟩
        · rw [hf] at h
          exact absurd h (by decide)
        · omega
      · intro y hy hye
        rw [← hrc]
        exact hbef y hy hye
      · intro y hy hye
        rw [← hrc]
        exact haft y hy hye
      · simp only [getNextUrl, hp]
        have hq : s.queue.map (fun x =>
            if x.url = c.url then
              { x with status := STATUS_PROCESSING,
                       processing_started := some s.time }
            else x) = l1 ++
              { c with status := STATUS_PROCESSING,
                       processing_started := some s.time } :: l2 := by
          rw [hsq]
          exact map_update_append _ l1 l2 c hn1 hn2
        rw [hq]

theorem getNextUrl_claim_witness : getNextUrlSpec c1w :=
  getNextUrl_claim c1w (by decide)


/-- C2: for every store whose urls are unique and every key present in it,
reporting completed sets that item to completed with error and
processing_started cleared and retry_count unchanged, and reporting failed
sets it to failed with retry_count incremented by one, the error recorded and
processing_started cleared; no other item is modified by either call. -/
theorem update_url_status_claim (s : DBState) (l1 l2 : List QueueItem)
    (it : QueueItem) (err : String) (h : s.queue = l1 ++ it :: l2)
    (hu : (s.queue.map QueueItem.url).Nodup) :
    updateStatusSpec s l1 it l2 err := by
  obtain ⟨hn1, hn2⟩ := nodup_split_urls l1 l2 it (h ▸ hu)
  have hcompleted : updateItem STATUS_COMPLETED none s.time it =
      { it with status := STATUS_COMPLETED, error := none,
                retry_count := it.retry_count,
                last_attempted := some s.time,
                processing_started := none } := by
    unfold updateItem
    rw [if_neg (by decide : ¬(STATUS_COMPLETED = STATUS_FAILED)),
      if_neg (by decide : ¬(STATUS_COMPLETED = STATUS_PROCESSING))]
  have hfailed : updateItem STATUS_FAILED (some err) s.time it =
      { it with status := STATUS_FAILED, error := some err,
                retry_count := it.retry_count + 1,
                last_attempted := some s.time,
                processing_started := none } := by
    unfold updateItem
    rw [if_pos rfl, if_neg (by decide : ¬(STATUS_FAILED = STATUS_PROCESSING))]
  constructor
  · unfold markUrlCompleted updateUrlStatus
    rw [h, map_update_append (updateItem STATUS_COMPLETED none s.time) l1 l2 it hn1 hn2,
      hcompleted]
  · unfold markUrlFailed updateUrlStatus
    rw [h, map_update_append (updateItem STATUS_FAILED (some err) s.time) l1 l2 it hn1 hn2,
      hfailed]

theorem update_url_status_claim_witness :
    updateStatusSpec c2w [] (pendingItem "a") [] "boom" :=
  update_url_status_claim c2w [] [] (pendingItem "a") "boom" rfl (by decide)


/-- C4 counterexample: the claim as stated is false on the code. A failure
report on an item whose status is pending, not processing, still increments
its retry count, because update_url_status keys the increment on the reported
status alone and never inspects the current status. -/
theorem retry_count_claim_counterexample : ¬ claimC4Stated := by
  intro h
  have := h c4w 0 (pendingItem "a") "a" "e" rfl (by decide)
    (updateItem STATUS_FAILED (some "e") 0 (pendingItem "a")) (by decide)
  exact absurd this (by decide)

/-- C4 amended: under every queue operation, an existing item keeps its
position, and its retry count changes in exactly two ways: a failure report
naming its url increments it by one regardless of the current status, and
reset_failed zeroes it when the current status is failed; every other
operation, and failure reports for other urls, leave it unchanged. -/
theorem retry_count_dynamics (op : Op) (s : DBState) (i : Nat)
    (b : QueueItem) (hb : s.queue[i]? = some b) :
    ∃ a, (applyOp op s).queue[i]? = some a ∧ a.url = b.url ∧
      a.retry_count =
        (match op with
         | Op.reportFailure u _ =>
             if b.url = u then b.retry_count + 1 else b.retry_count
         | Op.reset => if b.status = STATUS_FAILED then 0 else b.retry_count
         | _ => b.retry_count) := by
  have hi : i < s.queue.length := by
    by_contra hcon
    rw [List.getElem?_eq_none (Nat.le_of_not_lt hcon)] at hb
    cases hb
  cases op with
  | enqueue url =>
    refine ⟨b, ?_, rfl, rfl⟩
    simp only [applyOp, addToQueue]
    by_cases hex : s.queue.any (fun it => it.url == url) = true
    · rw [if_pos hex]
      exact hb
    · rw [if_neg hex]
      rw [List.getElem?_append_left hi]
      exact hb
  | claimNext =>
    cases hp : pickEligible s.queue with
    | none =>
      refine ⟨b, ?_, rfl, rfl⟩
      simp only [applyOp, getNextUrl, hp]
      exact hb
    | some c =>
      by_cases hc : b.url = c.url
      · refine ⟨{ b with status := STATUS_PROCESSING, processing_started := some s.time }, ?_, rfl, rfl⟩
        simp only [applyOp, getNextUrl, hp, List.getElem?_map, hb, Option.map_some', if_pos hc]
      · refine ⟨b, ?_, rfl, rfl⟩
        simp only [applyOp, getNextUrl, hp, List.getElem?_map, hb, Option.map_some', if_neg hc]
  | reportSuccess url =>
    by_cases hc : b.url = url
    · refine ⟨updateItem STATUS_COMPLETED none s.time b, ?_, rfl, ?_⟩
      · simp only [applyOp, markUrlCompleted, updateUrlStatus, List.getElem?_map, hb,
          Option.map_some', if_pos hc]
      · unfold updateItem
        rw [if_neg (by decide : ¬(STATUS_COMPLETED = STATUS_FAILED))]
    · refine ⟨b, ?_, rfl, rfl⟩
      simp only [applyOp, markUrlCompleted, updateUrlStatus, List.getElem?_map, hb,
        Option.map_some', if_neg hc]
  | reportFailure url err =>
    by_cases hc : b.url = url
    · refine ⟨updateItem STATUS_FAILED (some err) s.time b, ?_, rfl, ?_⟩
      · simp only [applyOp, markUrlFailed, updateUrlStatus, List.getElem?_map, hb,
          Option.map_some', if_pos hc]
      · dsimp only [updateItem]
        rw [if_pos rfl, if_pos hc]
    · refine ⟨b, ?_, rfl, ?_⟩
      · simp only [applyOp, markUrlFailed, updateUrlStatus, List.getElem?_map, hb,
          Option.map_some', if_neg hc]
      · dsimp only
        rw [if_neg hc]
  | reset =>
    by_cases hc : b.status = STATUS_FAILED
    · refine ⟨{ b with status := STATUS_PENDING, retry_count := 0, error := none }, ?_, rfl, ?_⟩
      · simp only [applyOp, resetFailed, List.getElem?_map, hb, Option.map_some',
          resetItem, if_pos hc]
      · rw [if_pos hc]
    · refine ⟨b, ?_, rfl, ?_⟩
      · simp only [applyOp, resetFailed, List.getElem?_map, hb, Option.map_some',
          resetItem, if_neg hc]
      · rw [if_neg hc]

theorem retry_count_dynamics_witness :
    ∃ a, (applyOp (Op.reportFailure "a" "e") c4w).queue[0]? = some a ∧
      a.url = (pendingItem "a").url ∧
      a.retry_count =
        (if (pendingItem "a").url = "a" then (pendingItem "a").retry_count + 1
         else (pendingItem "a").retry_count) :=
  retry_count_dynamics (Op.reportFailure "a" "e") c4w 0 (pendingItem "a") rfl


/-- C5: enqueue is idempotent. On a store where the url is not yet present,
calling add_to_queue twice equals calling it once, the resulting store holds
exactly one row for that url, and that row is pending with retry count 0. -/
theorem add_to_queue_claim (s : DBState) (url : String)
    (h : ∀ it ∈ s.queue, it.url ≠ url) :
    addToQueue url (addToQueue url s) = addToQueue url s ∧
    (addToQueue url (addToQueue url s)).queue.countP (fun it => it.url == url) = 1 ∧
    (∀ it ∈ (addToQueue url (addToQueue url s)).queue,
      it.url = url → it.status = STATUS_PENDING ∧ it.retry_count = 0) := by
  have hany : s.queue.any (fun it => it.url == url) = false := by
    rw [← Bool.not_eq_true, List.any_eq_true]
    rintro ⟨x, hx, hxu⟩
    exact h x hx (beq_iff_eq.mp hxu)
  have h1 : addToQueue url s = { s with queue := s.queue ++ [pendingItem url] } := by
    unfold addToQueue
    rw [hany]
    rfl
  have h2 : addToQueue url (addToQueue url s) = addToQueue url s := by
    rw [h1]
    unfold addToQueue
    have : (s.queue ++ [pendingItem url]).any (fun it => it.url == url) = true := by
      rw [List.any_eq_true]
      exact ⟨pendingItem url, List.mem_append_right s.queue (List.mem_singleton.mpr rfl),
        beq_iff_eq.mpr rfl⟩
    rw [this]
    rfl
  refine ⟨h2, ?_, ?_⟩
  · rw [h2, h1]
    have hz : s.queue.countP (fun it => it.url == url) = 0 := by
      rw [List.countP_eq_zero]
      intro a ha
      exact fun hx => h a ha (beq_iff_eq.mp hx)
    rw [List.countP_append, hz]
    simp [List.countP_cons, pendingItem]
  · rw [h2, h1]
    intro it hit hurl
    rcases List.mem_append.mp hit with hmem | hmem
    · exact absurd hurl (h it hmem)
    · rw [List.mem_singleton.mp hmem]
      exact ⟨rfl, rfl⟩

theorem add_to_queue_claim_witness :
    addToQueue "a" (addToQueue "a" emptyDB) = addToQueue "a" emptyDB ∧
    (addToQueue "a" (addToQueue "a" emptyDB)).queue.countP (fun it => it.url == "a") = 1 ∧
    (∀ it ∈ (addToQueue "a" (addToQueue "a" emptyDB)).queue,
      it.url = "a" → it.status = STATUS_PENDING ∧ it.retry_count = 0) :=
  add_to_queue_claim emptyDB "a" (by intro it hit; cases hit)

/-- C6: reset_failed returns the count of failed rows, changes every failed
row to pending with retry count 0 and error cleared, leaves every other row
and the rest of the store unchanged, and on the concrete store with exactly
three failed rows it returns 3 and leaves all three pending with retry count
0. -/
theorem reset_failed_claim :
    (∀ (s : DBState),
      (resetFailed s).1 = s.queue.countP (fun it => it.status == STATUS_FAILED) ∧
      (resetFailed s).2.lemmas = s.lemmas ∧
      (resetFailed s).2.time = s.time ∧
      (resetFailed s).2.queue.length = s.queue.length ∧
      ∀ (i : Nat) (b : QueueItem), s.queue[i]? = some b →
        (resetFailed s).2.queue[i]? =
          some (if b.status = STATUS_FAILED
                then { b with status := STATUS_PENDING, retry_count := 0, error := none }
                else b)) ∧
    (resetFailed c6w).1 = 3 ∧
    (resetFailed c6w).2.queue.all
      (fun it => it.status == STATUS_PENDING && decide (it.retry_count = 0) &&
        decide (it.error = none)) = true := by
  refine ⟨?_, by decide, by decide⟩
  intro s
  refine ⟨rfl, rfl, rfl, List.length_map s.queue resetItem, ?_⟩
  intro i b hb
  simp only [resetFailed, List.getElem?_map, hb, Option.map_some']
  rfl

theorem reset_failed_claim_witness :
    (resetFailed c6w).2.queue[0]? =
      some (if (failedItem "f1").status = STATUS_FAILED
            then { failedItem "f1" with status := STATUS_PENDING, retry_count := 0, error := none }
            else failedItem "f1") :=
  (reset_failed_claim.1 c6w).2.2.2.2 0 (failedItem "f1") rfl


/-- C3: the four-status invariant is broken by the fetch worker. Starting
from a store whose statuses are all legal, claiming the url and letting
scrape_lemma_page report a fetch failure leaves a row whose status is the
string error, which is none of pending, processing, completed, failed. -/
theorem scrape_lemma_page_breaks_status_invariant :
    ((addToQueue "u" emptyDB).queue.all (fun it => validStatus it.status) = true) ∧
    (((getNextUrl (addToQueue "u" emptyDB)).2).queue.all
      (fun it => validStatus it.status) = true) ∧
    (∃ it ∈ ((scrapeLemmaPage (fun _ => none) (fun _ _ => []) "u"
        ((getNextUrl (addToQueue "u" emptyDB)).2)).2).queue,
      it.status = "error" ∧ validStatus it.status = false) := by
  decide

/-- C7: with five keys enqueued and a processing step that always fails, the
crawl loop terminates with the queue drained, every row failed with retry
count 3, and the progress snapshot reporting 0 pending, 0 processing, 0
completed and 5 failed; extra fuel does not change the final store. -/
theorem resume_scraping_all_fail_claim :
    (getNextUrl c7Final).1 = none ∧
    c7Final.queue.all
      (fun it => it.status == STATUS_FAILED && decide (it.retry_count = 3)) = true ∧
    getProgress c7Final =
      { total := 5, completed := 0, failed := 5, pending := 0, processing := 0 } ∧
    resumeScraping (fun _ => false) 100 c7Start = c7Final := by
  decide

/-- C8: when the fetch succeeds but the parse yields zero records, the worker
returns false, records the error reason No entries found, stores no lexicon
record, and does not mark the row completed; however the status it writes is
the string error rather than failed, the retry count is not incremented, and
the row is not eligible for any further claim. -/
theorem scrape_lemma_page_empty_parse_claim :
    (scrapeLemmaPage (fun _ => some "html") (fun _ _ => []) "u"
      ((getNextUrl (addToQueue "u" emptyDB)).2)).1 = false ∧
    (∃ it ∈ ((scrapeLemmaPage (fun _ => some "html") (fun _ _ => []) "u"
        ((getNextUrl (addToQueue "u" emptyDB)).2)).2).queue,
      it.url = "u" ∧ it.status = "error" ∧ it.error = some "No entries found" ∧
      it.status ≠ STATUS_COMPLETED ∧ it.status ≠ STATUS_FAILED ∧
      it.retry_count = 0 ∧ eligible it = false) ∧
    ((scrapeLemmaPage (fun _ => some "html") (fun _ _ => []) "u"
      ((getNextUrl (addToQueue "u" emptyDB)).2)).2).lemmas = [] := by
  decide

/-- C9: two workers that call _wait_for_delay concurrently at clock 0 with
delay 5 and a zeroed marker both compute their wait from the same stale
marker, are both granted at instant 5, and leave the marker at 5: zero time
elapses between the first and the last grant, not the at least (2-1)*5 the
claim requires, and both callers satisfied the wait for the same gap. -/
theorem rate_limiter_concurrent_gap_violation :
    interleavedGrants { last_request_time := 0 } 0 5 =
      (5, 5, { last_request_time := 5 }) ∧
    ¬ ((2 - 1) * 5 ≤
        (interleavedGrants { last_request_time := 0 } 0 5).2.1 -
          (interleavedGrants { last_request_time := 0 } 0 5).1) := by
  decide

/-- C10 counterexample: the claim as stated is false on the code.
add_lexicon_entry called on an entry dictionary lacking the lemma key raises
KeyError to its caller, because the except handler's log f-string evaluates
entry[lemma] again (database.py line 72), instead of returning false. -/
theorem database_ops_never_raise_counterexample : ¬ claimC10Stated := by
  intro h
  obtain ⟨⟨r, hr⟩, -⟩ := h (Except.ok ()) noLemmaEntry emptyDB
  rw [show addLexiconEntryOp (Except.ok ()) noLemmaEntry emptyDB =
      Except.error "KeyError: lemma" from rfl] at hr
  exact Except.noConfusion hr

/-- C10 amended: when the entry dictionary carries a lemma key, every listed
Database operation is total and returns its documented fallback on a storage
error and its normal result on a working storage; add_lexicon_entry on a
dictionary lacking the lemma key instead propagates KeyError to its caller,
whatever the storage did. -/
theorem database_ops_error_paths_claim (err lem : String) (e : EntryDict)
    (url status lemq : String) (oerr : Option String) (s : DBState)
    (hl : e.lemma_key = some lem) :
    databaseOpsSpec err lem e url status lemq oerr s := by
  unfold databaseOpsSpec
  refine ⟨?_, ?_, ?_, rfl, rfl, rfl, rfl, rfl, rfl, rfl, rfl, rfl, rfl, rfl, rfl⟩
  · simp only [addLexiconEntryOp, dictLemma, hl]
  · simp only [addLexiconEntryOp, dictLemma, hl]
  · intro e2 he2 conn
    cases conn <;> simp only [addLexiconEntryOp, dictLemma, he2]

theorem database_ops_error_paths_claim_witness :
    databaseOpsSpec "boom" "logos" someLemmaEntry "u" "completed" "w" none emptyDB :=
  database_ops_error_paths_claim "boom" "logos" someLemmaEntry "u" "completed" "w"
    none emptyDB rfl

end Logeion
